import Mathlib

/- Formal model of the accrual ledger implemented in src/main.rs: wallets with
   balance / locked / vested sub-balances, lazy settlement with exponential
   vesting and reserve-proportional interest funded by the issuer (index 0,
   "Koi"), fee-charging transfers, early settlement (self-redemption), the
   millionaire lottery, and read-only snapshots.  Monetary f64 values are
   modelled as real numbers; the wall clock is passed explicitly as a
   parameter `t`, and the random winner of the lottery as a parameter
   `pick`. -/

noncomputable section

/-- Base interest rate, 10/27 per year (source constant RATE). -/
def RATE : ℝ := 10 / 27

/-- Vesting rate, ten times the base rate (source constant PRATE). -/
def PRATE : ℝ := RATE * 10

/-- Seconds per year (source constant SPY). -/
def SPY : ℝ := 365.25 * 24 * 3600

/-- Total money supply (source constant TOTAL_SUPPLY). -/
def TOTAL_SUPPLY : ℝ := 1000000000

/-- Initial gift to Alice (source constant GIFT_ALICE). -/
def GIFT_ALICE : ℝ := 10000000

/-- Gift divided among the remaining wallets (source constant GIFT_REST). -/
def GIFT_REST : ℝ := 90000000

/-- Index of the contribution-tracked lottery wallet (source constant MILLIONAIRE_IDX). -/
def MILLIONAIRE_IDX : ℕ := 6

/-- Lottery payout size (source constant MILLIONAIRE_PAYOUT). -/
def MILLIONAIRE_PAYOUT : ℝ := 1000000

/-- Lottery trigger threshold (source constant MILLIONAIRE_THRESHOLD). -/
def MILLIONAIRE_THRESHOLD : ℝ := 1001001

/-- A wallet record, mirroring struct Wallet in the source. -/
structure Wallet where
  name : String
  contract : Bool
  locked : ℝ
  vested : ℝ
  balance : ℝ
  sent : ℝ
  t : ℝ

/-- A transaction-log entry, mirroring struct TxLog in the source. -/
structure TxLog where
  from_ : String
  to_ : String
  amount : ℝ
  fee : ℝ
  t : ℝ

/-- A ledger snapshot, mirroring struct Snapshot in the source. -/
structure Snapshot where
  wallets : List Wallet
  log : List TxLog
  rate : ℝ
  prate : ℝ
  spy : ℝ
  supply : ℝ
  k0 : ℝ
  t : ℝ

/-- The ledger state, mirroring struct App in the source (the broadcast
channel and the random generator are elided: the clock and the random draw
enter as explicit parameters of the operations). -/
structure App where
  wallets : List Wallet
  log : List TxLog
  contributions : List ℝ

/-- Default wallet used by the total indexing function (the Rust code only
ever indexes in range). -/
def dw : Wallet := ⟨"", false, 0, 0, 0, 0, 0⟩

/-- Read wallet `i` (Rust `self.wallets[i]`). -/
def gw (a : App) (i : ℕ) : Wallet := a.wallets.getD i dw

/-- Write wallet `i` (Rust assignment to `self.wallets[i]`). -/
def setw (a : App) (i : ℕ) (w : Wallet) : App :=
  { a with wallets := a.wallets.set i w }

/-- Elapsed time in years since a wallet was last settled (Rust `dt`). -/
def elapsed (w : Wallet) (t : ℝ) : ℝ := (t - w.t) / SPY

/-- Amount unlocked from `locked` by one settlement step (Rust `vested`
local in App::settle). -/
def vestOf (w : Wallet) (t : ℝ) : ℝ :=
  min (w.locked * (Real.exp (PRATE * elapsed w t) - 1)) w.locked

/-- Effective interest rate, proportional to the issuer's reserve clamped at
zero (Rust `erate` local in App::settle). -/
def rateOf (a : App) : ℝ := RATE * max (gw a 0).balance 0 / TOTAL_SUPPLY

/-- Interest minted for one settlement step (Rust `interest` local in
App::settle). -/
def interestOf (a : App) (w : Wallet) (t : ℝ) : ℝ :=
  (w.balance + w.vested + vestOf w t) * (Real.exp (rateOf a * elapsed w t) - 1)

/-- App::settle from the source: a no-op for the issuer (index 0) and for
contract wallets; otherwise unlocks part of `locked` into `vested`, adds
interest to `balance`, stamps the wallet with the current time, and debits
the interest from the issuer's balance. -/
def settle (a : App) (t : ℝ) (i : ℕ) : App :=
  if i = 0 ∨ (gw a i).contract then a
  else
    let w := gw a i
    let v := vestOf w t
    let interest := interestOf a w t
    let a1 := setw a i
      { w with balance := w.balance + interest, vested := w.vested + v,
               locked := w.locked - v, t := t }
    setw a1 0 { gw a1 0 with balance := (gw a1 0).balance - interest }

/-- App::early_settle from the source: rejected for the issuer and for
negative amounts; settles the wallet; rejects a claim exceeding 3/4 of the
(settled) locked amount; otherwise moves the vested sub-balance to spendable
balance for free, credits the claimed amount, deducts the claim plus a
one-third penalty fee from `locked`, routes the fee to the issuer, and logs
a self-to-self entry when anything moved. -/
def early_settle (a : App) (t : ℝ) (i : ℕ) (amount : ℝ) :
    App × Option String :=
  if i = 0 then (a, some ("Koi cannot settle"))
  else if amount < 0 then (a, some ("Amount must be non-negative"))
  else
    let a1 := settle a t i
    if 0 < amount ∧ 3 * (gw a1 i).locked / 4 < amount then
      (a1, some ("Exceeds available"))
    else
      let w := gw a1 i
      let claimed := w.vested
      let a2 := setw a1 i { w with balance := w.balance + claimed, vested := 0 }
      let a3 :=
        if 0 < amount then
          let fee := amount / 3
          let w2 := gw a2 i
          let a2b := setw a2 i
            { w2 with balance := w2.balance + amount,
                      locked := w2.locked - (amount + fee) }
          setw a2b 0 { gw a2b 0 with balance := (gw a2b 0).balance + fee }
        else a2
      let total := claimed + amount
      let a4 :=
        { a3 with log := if 0 < total then
            a3.log ++ [⟨(gw a3 i).name, (gw a3 i).name, total,
                        if 0 < amount then amount / 3 else 0, t⟩]
          else a3.log }
      (a4, none)

/-- App::send from the source: a self-transfer is routed to early
settlement; non-positive amounts are rejected; the sender is settled and
checked for sufficient spendable balance; the amount is debited; for a
wallet-to-wallet transfer (neither endpoint the issuer) a 0.1% fee is drawn
from the sender's locked, then vested, then remaining balance, any shortfall
reducing the transmitted amount, and the full fee is credited to the issuer;
a transfer to the millionaire wallet records the sender's contribution; the
recipient is settled and credited (in full for the issuer or a contract
wallet, otherwise one third spendable and two thirds locked); finally a log
entry is appended. -/
def send (a : App) (t : ℝ) (i j : ℕ) (amount : ℝ) : App × Option String :=
  if i = j then early_settle a t i amount
  else if amount ≤ 0 then (a, some ("Amount must be positive"))
  else
    let a1 := settle a t i
    if (gw a1 i).balance < amount then (a1, some ("Insufficient balance"))
    else
      let w := gw a1 i
      let a2 := setw a1 i
        { w with balance := w.balance - amount, sent := w.sent + amount }
      let step :=
        if i ≠ 0 ∧ j ≠ 0 then
          let fee := amount / 1000
          let w2 := gw a2 i
          let fl := min fee w2.locked
          let fv := min (fee - fl) w2.vested
          let fb := min (fee - fl - fv) w2.balance
          let rem := fee - fl - fv - fb
          let a3 := setw a2 i
            { w2 with locked := w2.locked - fl, vested := w2.vested - fv,
                      balance := w2.balance - fb }
          let a4 := setw a3 0
            { gw a3 0 with balance := (gw a3 0).balance + fee }
          (a4, amount - rem, fee)
        else (a2, amount, 0)
      let a5 := step.1
      let sa := step.2.1
      let fee := step.2.2
      let a6 := { a5 with contributions :=
        if j = MILLIONAIRE_IDX then
          a5.contributions.set i (a5.contributions.getD i 0 + sa)
        else a5.contributions }
      let a7 := settle a6 t j
      let wj := gw a7 j
      let a8 :=
        if j = 0 ∨ wj.contract then
          setw a7 j { wj with balance := wj.balance + sa }
        else
          setw a7 j { wj with balance := wj.balance + sa / 3,
                              locked := wj.locked + 2 * sa / 3 }
      let a9 := { a8 with log :=
        a8.log ++ [⟨(gw a8 i).name, (gw a8 j).name, sa, fee, t⟩] }
      (a9, none)

/-- App::check_millionaire from the source: a no-op unless the millionaire
wallet's balance exceeds the threshold and some wallet has a positive
contribution; otherwise pays out to a contribution-weighted random winner
(the random draw abstracted as `pick`) through the ordinary send path and
resets every contribution accumulator to zero regardless of the send's
outcome. -/
def check_millionaire (a : App) (t : ℝ) (pick : ℕ) : App :=
  if (gw a MILLIONAIRE_IDX).balance ≤ MILLIONAIRE_THRESHOLD then a
  else
    let weights := a.contributions.enum.filter fun p => decide (0 < p.2)
    if weights.isEmpty then a
    else
      let winner := (weights.getD (pick % weights.length) (0, 0)).1
      let a1 := (send a t MILLIONAIRE_IDX winner MILLIONAIRE_PAYOUT).1
      { a1 with contributions := a1.contributions.map fun _ => 0 }

/-- App::snapshot from the source: clones the wallet table and the log as
they stand and packages them with the configured constants and the current
time; it performs no settlement. -/
def snapshot (a : App) (t : ℝ) : Snapshot :=
  { wallets := a.wallets, log := a.log, rate := RATE, prate := PRATE,
    spy := SPY, supply := TOTAL_SUPPLY,
    k0 := TOTAL_SUPPLY - GIFT_ALICE - GIFT_REST, t := t }

/-- The monetary funds held by one wallet across all sub-balances. -/
def fnd (w : Wallet) : ℝ := w.balance + w.locked + w.vested

/-- Total funds across the whole ledger. -/
def totalFunds (a : App) : ℝ := (a.wallets.map fnd).sum

/-- Well-formedness of a ledger state at time `t`: every wallet has
non-negative locked and vested sub-balances, every non-issuer wallet has a
non-negative spendable balance, and no wallet's settlement timestamp lies in
the future. -/
def WF (a : App) (t : ℝ) : Prop :=
  ∀ i, i < a.wallets.length →
    0 ≤ (gw a i).locked ∧ 0 ≤ (gw a i).vested ∧
    (i ≠ 0 → 0 ≤ (gw a i).balance) ∧ (gw a i).t ≤ t

/-- The state produced by a successful early settlement, with the two writes
to the redeemed wallet collapsed into one; proven below (early_settle_eq)
to be exactly what App::early_settle returns on its success path. -/
def early_result (a : App) (t : ℝ) (i : ℕ) (amount : ℝ) : App :=
  let a1 := settle a t i
  let w := gw a1 i
  let a3 :=
    if 0 < amount then
      setw (setw a1 i
        { w with balance := w.balance + w.vested + amount, vested := 0,
                 locked := w.locked - (amount + amount / 3) })
        0 { gw a1 0 with balance := (gw a1 0).balance + amount / 3 }
    else setw a1 i { w with balance := w.balance + w.vested, vested := 0 }
  { a3 with log := if 0 < w.vested + amount then
      a3.log ++ [⟨(gw a3 i).name, (gw a3 i).name, w.vested + amount,
                  if 0 < amount then amount / 3 else 0, t⟩]
    else a3.log }

/-- The state produced by a successful wallet-to-wallet transfer (neither
endpoint the issuer), with the writes to the sender collapsed into one;
proven below (send_eq) to be exactly what App::send returns on its success
path. -/
def send_result (a : App) (t : ℝ) (i j : ℕ) (amount : ℝ) : App :=
  let a1 := settle a t i
  let w := gw a1 i
  let fee := amount / 1000
  let fl := min fee w.locked
  let fv := min (fee - fl) w.vested
  let fb := min (fee - fl - fv) (w.balance - amount)
  let rem := fee - fl - fv - fb
  let a4 := setw (setw a1 i
    { w with balance := w.balance - amount - fb,
             sent := w.sent + amount, locked := w.locked - fl,
             vested := w.vested - fv })
    0 { gw a1 0 with balance := (gw a1 0).balance + fee }
  let a6 := { a4 with contributions :=
    if j = MILLIONAIRE_IDX then
      a4.contributions.set i (a4.contributions.getD i 0 + (amount - rem))
    else a4.contributions }
  let a7 := settle a6 t j
  let wj := gw a7 j
  let a8 :=
    if j = 0 ∨ wj.contract then
      setw a7 j { wj with balance := wj.balance + (amount - rem) }
    else
      setw a7 j { wj with balance := wj.balance + (amount - rem) / 3,
                          locked := wj.locked + 2 * (amount - rem) / 3 }
  { a8 with log :=
    a8.log ++ [⟨(gw a8 i).name, (gw a8 j).name, amount - rem, fee, t⟩] }

/-- The state produced by a successful transfer in which one endpoint is the
issuer, so that no fee is charged; proven below (send_eq_nofee) to be
exactly what App::send returns on that path. -/
def send_result0 (a : App) (t : ℝ) (i j : ℕ) (amount : ℝ) : App :=
  let a1 := settle a t i
  let w := gw a1 i
  let a2 := setw a1 i
    { w with balance := w.balance - amount, sent := w.sent + amount }
  let a6 := { a2 with contributions :=
    if j = MILLIONAIRE_IDX then
      a2.contributions.set i (a2.contributions.getD i 0 + amount)
    else a2.contributions }
  let a7 := settle a6 t j
  let wj := gw a7 j
  let a8 :=
    if j = 0 ∨ wj.contract then
      setw a7 j { wj with balance := wj.balance + amount }
    else
      setw a7 j { wj with balance := wj.balance + amount / 3,
                          locked := wj.locked + 2 * amount / 3 }
  { a8 with log :=
    a8.log ++ [⟨(gw a8 i).name, (gw a8 j).name, amount, 0, t⟩] }

/-- Concrete ledger: issuer with 1000, wallet A with spendable 100, wallet B
empty, all settled at time 0. -/
def appA : App :=
  { wallets := [⟨"Koi", false, 0, 0, 1000, 0, 0⟩,
                ⟨"A", false, 0, 0, 100, 0, 0⟩,
                ⟨"B", false, 0, 0, 0, 0, 0⟩],
    log := [], contributions := [0, 0, 0] }

/-- Concrete ledger: issuer with 1000 and an empty wallet Z, both last
settled at time 0. -/
def appB : App :=
  { wallets := [⟨"Koi", false, 0, 0, 1000, 0, 0⟩,
                ⟨"Z", false, 0, 0, 0, 0, 0⟩],
    log := [], contributions := [0, 0] }

/-- Concrete ledger: issuer with 1000 and wallet D holding locked 4 and
vested 5, settled at time 0. -/
def appD : App :=
  { wallets := [⟨"Koi", false, 0, 0, 1000, 0, 0⟩,
                ⟨"D", false, 4, 5, 0, 0, 0⟩],
    log := [], contributions := [0, 0] }

/-- Concrete ledger: issuer nearly drained (balance 1) while wallet E holds
a huge spendable balance, both last settled at time 0. -/
def appE : App :=
  { wallets := [⟨"Koi", false, 0, 0, 1, 0, 0⟩,
                ⟨"E", false, 0, 0, 100000000000, 0, 0⟩],
    log := [], contributions := [0, 0] }

/-- Concrete ledger: issuer empty and wallet F holding only locked 2, both
last settled at time 0. -/
def appF : App :=
  { wallets := [⟨"Koi", false, 0, 0, 0, 0, 0⟩,
                ⟨"F", false, 2, 0, 0, 0, 0⟩],
    log := [], contributions := [0, 0] }

/-- Concrete ledger with the millionaire contract wallet (index 6) above the
lottery threshold and one positive contribution recorded for Alice. -/
def appM : App :=
  { wallets := [⟨"Koi", false, 0, 0, 1000, 0, 0⟩,
                ⟨"Alice", false, 0, 0, 50, 0, 0⟩,
                ⟨"Bob", false, 0, 0, 50, 0, 0⟩,
                ⟨"Carol", false, 0, 0, 0, 0, 0⟩,
                ⟨"Dan", false, 0, 0, 0, 0, 0⟩,
                ⟨"Eve", false, 0, 0, 0, 0, 0⟩,
                ⟨"Millionaire", true, 0, 0, 2000000, 0, 0⟩],
    log := [], contributions := [0, 7, 0, 0, 0, 0, 0] }

/-- The millionaire ledger with all contribution accumulators zero. -/
def appM0 : App := { appM with contributions := [0, 0, 0, 0, 0, 0, 0] }

/-- Setting an index and reading it back yields the written value. -/
theorem getD_set_self {α : Type _} :
    ∀ (l : List α) (i : ℕ) (x d : α), i < l.length → (l.set i x).getD i d = x
  | _ :: _, 0, _, _, _ => rfl
  | _ :: l, i + 1, x, d, h =>
    getD_set_self l i x d (Nat.lt_of_succ_lt_succ h)

/-- Setting one index leaves reads at other indices unchanged. -/
theorem getD_set_ne {α : Type _} :
    ∀ (l : List α) (i j : ℕ) (x d : α), i ≠ j → (l.set i x).getD j d = l.getD j d
  | [], _, _, _, _, _ => by simp
  | _ :: _, 0, 0, _, _, h => absurd rfl h
  | _ :: _, 0, _ + 1, _, _, _ => rfl
  | _ :: _, _ + 1, 0, _, _, _ => rfl
  | _ :: l, i + 1, j + 1, x, d, h =>
    getD_set_ne l i j x d fun hij => h (by rw [hij])

/-- Writing back the value already stored is a no-op. -/
theorem set_getD_self {α : Type _} :
    ∀ (l : List α) (i : ℕ) (d : α), l.set i (l.getD i d) = l
  | [], _, _ => rfl
  | _ :: _, 0, _ => rfl
  | a :: l, i + 1, d => by
    show a :: l.set i (l.getD i d) = a :: l
    rw [set_getD_self l i d]

/-- Effect of a pointwise update on a mapped sum. -/
theorem map_sum_set {α : Type _} (f : α → ℝ) (d : α) :
    ∀ (l : List α) (i : ℕ) (x : α), i < l.length →
      ((l.set i x).map f).sum = (l.map f).sum - f (l.getD i d) + f x
  | a :: l, 0, x, _ => by simp [List.sum_cons]; ring
  | a :: l, i + 1, x, h => by
    have ih := map_sum_set f d l i x (Nat.lt_of_succ_lt_succ h)
    simp only [List.set_cons_succ, List.map_cons, List.sum_cons, ih,
      List.getD_cons_succ]
    ring

/-- Reading the just-written wallet. -/
theorem gw_setw_self (a : App) (i : ℕ) (w : Wallet) (h : i < a.wallets.length) :
    gw (setw a i w) i = w :=
  getD_set_self a.wallets i w dw h

/-- Reading another wallet after a write. -/
theorem gw_setw_ne (a : App) (i j : ℕ) (w : Wallet) (h : i ≠ j) :
    gw (setw a i w) j = gw a j :=
  getD_set_ne a.wallets i j w dw h

/-- Writes preserve the size of the wallet table. -/
theorem setw_length (a : App) (i : ℕ) (w : Wallet) :
    (setw a i w).wallets.length = a.wallets.length :=
  List.length_set a.wallets i w

/-- Writing a wallet does not touch the transaction log. -/
theorem setw_log (a : App) (i : ℕ) (w : Wallet) : (setw a i w).log = a.log := rfl

/-- Writing a wallet does not touch the contribution accumulators. -/
theorem setw_contributions (a : App) (i : ℕ) (w : Wallet) :
    (setw a i w).contributions = a.contributions := rfl

/-- Settlement of the issuer is a complete no-op (early return in the
source, before the timestamp update). -/
theorem settle_issuer (a : App) (t : ℝ) : settle a t 0 = a := by
  simp [settle]

/-- Settlement of a contract wallet is a complete no-op. -/
theorem settle_contract (a : App) (t : ℝ) (i : ℕ)
    (h : (gw a i).contract = true) : settle a t i = a := by
  simp [settle, h]

/-- Closed form of one settlement step on a non-issuer, non-contract
wallet. -/
theorem settle_eq (a : App) (t : ℝ) (i : ℕ) (h0 : ¬ i = 0)
    (hc : (gw a i).contract = false) :
    settle a t i =
      setw (setw a i
        { gw a i with
            balance := (gw a i).balance + interestOf a (gw a i) t,
            vested := (gw a i).vested + vestOf (gw a i) t,
            locked := (gw a i).locked - vestOf (gw a i) t, t := t })
        0 { gw a 0 with
            balance := (gw a 0).balance - interestOf a (gw a i) t } := by
  simp only [settle, h0, hc, Bool.false_eq_true, or_self, if_false]
  rw [gw_setw_ne _ _ _ _ h0]

/-- Settlement preserves the size of the wallet table. -/
theorem settle_length (a : App) (t : ℝ) (i : ℕ) :
    (settle a t i).wallets.length = a.wallets.length := by
  unfold settle
  split
  · rfl
  · simp [setw_length]

/-- Settlement does not touch the transaction log. -/
theorem settle_log (a : App) (t : ℝ) (i : ℕ) :
    (settle a t i).log = a.log := by
  unfold settle
  split
  · rfl
  · rfl

/-- Settlement does not touch the contribution accumulators. -/
theorem settle_contributions (a : App) (t : ℝ) (i : ℕ) :
    (settle a t i).contributions = a.contributions := by
  unfold settle
  split
  · rfl
  · rfl

/-- The settled wallet after one settlement step. -/
theorem settle_gw_self (a : App) (t : ℝ) (i : ℕ) (hi : i < a.wallets.length)
    (h0 : ¬ i = 0) (hc : (gw a i).contract = false) :
    gw (settle a t i) i =
      { gw a i with
          balance := (gw a i).balance + interestOf a (gw a i) t,
          vested := (gw a i).vested + vestOf (gw a i) t,
          locked := (gw a i).locked - vestOf (gw a i) t, t := t } := by
  rw [settle_eq a t i h0 hc, gw_setw_ne _ 0 i _ (fun h => h0 h.symm),
    gw_setw_self _ _ _ hi]

/-- The issuer's balance is debited by the minted interest. -/
theorem settle_gw_issuer (a : App) (t : ℝ) (i : ℕ)
    (hlen : 0 < a.wallets.length) (h0 : ¬ i = 0)
    (hc : (gw a i).contract = false) :
    gw (settle a t i) 0 =
      { gw a 0 with
          balance := (gw a 0).balance - interestOf a (gw a i) t } := by
  rw [settle_eq a t i h0 hc]
  exact gw_setw_self _ _ _ (by simp [setw_length, hlen])

/-- Settlement of wallet `i` leaves every other non-issuer wallet
unchanged. -/
theorem settle_gw_other (a : App) (t : ℝ) (i j : ℕ) (hji : j ≠ i)
    (hj0 : ¬ j = 0) : gw (settle a t i) j = gw a j := by
  unfold settle
  split
  · rfl
  · rw [gw_setw_ne _ 0 j _ (fun h => hj0 h.symm),
      gw_setw_ne _ i j _ (fun h => hji h.symm)]

/-- Writing back the wallet already stored is a no-op. -/
theorem setw_self (a : App) (i : ℕ) : setw a i (gw a i) = a := by
  show ({ a with wallets := a.wallets.set i (a.wallets.getD i dw) } : App) = a
  rw [set_getD_self]

/-- Settlement at the wallet's own timestamp (zero elapsed time) is a
complete no-op, provided the locked sub-balance is non-negative. -/
theorem settle_noop (a : App) (t : ℝ) (i : ℕ) (ht : (gw a i).t = t)
    (hl : 0 ≤ (gw a i).locked) : settle a t i = a := by
  by_cases h0 : i = 0
  · subst h0; exact settle_issuer a t
  by_cases hc : (gw a i).contract = true
  · exact settle_contract a t i hc
  have hc' : (gw a i).contract = false := by
    cases h : (gw a i).contract
    · rfl
    · exact absurd h hc
  have he : elapsed (gw a i) t = 0 := by
    simp [elapsed, ht]
  have hv : vestOf (gw a i) t = 0 := by
    simp only [vestOf, he, mul_zero, Real.exp_zero, sub_self, zero_mul]
    exact min_eq_left hl
  have hint : interestOf a (gw a i) t = 0 := by
    simp [interestOf, he]
  rw [settle_eq a t i h0 hc', hv, hint]
  have e1 : ({ gw a i with
      balance := (gw a i).balance + 0, vested := (gw a i).vested + 0,
      locked := (gw a i).locked - 0, t := t } : Wallet) = gw a i := by
    rw [← ht]; simp
  have e2 : ({ gw a 0 with
      balance := (gw a 0).balance - 0 } : Wallet) = gw a 0 := by
    simp
  rw [e1, e2, setw_self, setw_self]

/-- The seconds-per-year constant is positive. -/
theorem SPY_pos : 0 < SPY := by norm_num [SPY]

/-- Elapsed time is non-negative when the clock has not gone backwards. -/
theorem elapsed_nonneg (w : Wallet) (t : ℝ) (h : w.t ≤ t) :
    0 ≤ elapsed w t :=
  div_nonneg (sub_nonneg.mpr h) (le_of_lt SPY_pos)

/-- The vesting rate is non-negative. -/
theorem PRATE_nonneg : 0 ≤ PRATE := by norm_num [PRATE, RATE]

/-- One settlement step never unlocks a negative amount. -/
theorem vestOf_nonneg (w : Wallet) (t : ℝ) (hl : 0 ≤ w.locked)
    (ht : w.t ≤ t) : 0 ≤ vestOf w t := by
  apply le_min _ hl
  apply mul_nonneg hl
  have h1 : (1 : ℝ) ≤ Real.exp (PRATE * elapsed w t) :=
    Real.one_le_exp (mul_nonneg PRATE_nonneg (elapsed_nonneg w t ht))
  linarith

/-- One settlement step never unlocks more than the locked amount. -/
theorem vestOf_le (w : Wallet) (t : ℝ) : vestOf w t ≤ w.locked :=
  min_le_right _ _

/-- The effective interest rate is non-negative (the issuer's balance is
clamped at zero). -/
theorem rateOf_nonneg (a : App) : 0 ≤ rateOf a := by
  apply div_nonneg _ (by norm_num [TOTAL_SUPPLY])
  exact mul_nonneg (by norm_num [RATE]) (le_max_right _ _)

/-- Minted interest is non-negative on a well-formed wallet. -/
theorem interestOf_nonneg (a : App) (w : Wallet) (t : ℝ) (hb : 0 ≤ w.balance)
    (hv : 0 ≤ w.vested) (hl : 0 ≤ w.locked) (ht : w.t ≤ t) :
    0 ≤ interestOf a w t := by
  apply mul_nonneg
  · have := vestOf_nonneg w t hl ht
    linarith
  · have h1 : (1 : ℝ) ≤ Real.exp (rateOf a * elapsed w t) :=
      Real.one_le_exp (mul_nonneg (rateOf_nonneg a) (elapsed_nonneg w t ht))
    linarith

/-- Settlement preserves well-formedness: locked and vested stay
non-negative, non-issuer balances stay non-negative, timestamps stay in the
past. -/
theorem WF_settle (a : App) (t : ℝ) (i : ℕ) (hW : WF a t)
    (hi : i < a.wallets.length) : WF (settle a t i) t := by
  by_cases h0 : i = 0
  · subst h0; rw [settle_issuer]; exact hW
  by_cases hc : (gw a i).contract = true
  · rw [settle_contract a t i hc]; exact hW
  have hc' : (gw a i).contract = false := by
    cases h : (gw a i).contract
    · rfl
    · exact absurd h hc
  intro j hj
  rw [settle_length] at hj
  obtain ⟨hl, hv, hb, ht⟩ := hW i hi
  have hnn : 0 ≤ interestOf a (gw a i) t :=
    interestOf_nonneg a (gw a i) t (hb h0) hv hl ht
  have hvn : 0 ≤ vestOf (gw a i) t := vestOf_nonneg (gw a i) t hl ht
  by_cases hji : j = i
  · subst hji
    rw [settle_gw_self a t j hj h0 hc']
    obtain ⟨hl', hv', hb', ht'⟩ := hW j hj
    refine ⟨by simpa using sub_nonneg.mpr (vestOf_le (gw a j) t), ?_, ?_, ?_⟩
    · simpa using add_nonneg hv' hvn
    · intro _; simpa using add_nonneg (hb' h0) hnn
    · simp
  by_cases hj0 : j = 0
  · subst hj0
    rw [settle_gw_issuer a t i
      (Nat.lt_of_lt_of_le (Nat.pos_of_ne_zero h0) (le_of_lt hi)) h0 hc']
    obtain ⟨hl0, hv0, _, ht0⟩ := hW 0 hj
    exact ⟨hl0, hv0, fun h => absurd rfl h, ht0⟩
  · rw [settle_gw_other a t i j hji hj0]
    exact hW j hj

/-- Settlement conserves the total funds of the ledger: whatever interest a
wallet gains, the issuer loses, and vesting moves funds between
sub-balances of one wallet. -/
theorem totalFunds_settle (a : App) (t : ℝ) (i : ℕ)
    (hi : i < a.wallets.length) : totalFunds (settle a t i) = totalFunds a := by
  by_cases h0 : i = 0
  · subst h0; rw [settle_issuer]
  by_cases hc : (gw a i).contract = true
  · rw [settle_contract a t i hc]
  have hc' : (gw a i).contract = false := by
    cases h : (gw a i).contract
    · rfl
    · exact absurd h hc
  rw [settle_eq a t i h0 hc']
  show ((((setw a i _).wallets.set 0 _).map fnd).sum) = totalFunds a
  rw [map_sum_set fnd dw _ 0 _
    (by rw [setw_length]; exact Nat.lt_of_lt_of_le (Nat.zero_lt_of_ne_zero h0) (le_of_lt hi) )]
  show totalFunds (setw a i _) - fnd (gw (setw a i _) 0) + _ = totalFunds a
  rw [gw_setw_ne a i 0 _ h0]
  unfold totalFunds setw
  rw [map_sum_set fnd dw _ i _ hi]
  show (a.wallets.map fnd).sum - fnd (gw a i) + fnd _ - fnd (gw a 0) + fnd _ =
    (a.wallets.map fnd).sum
  simp only [fnd]
  ring

/-- Collapsing two writes to the same wallet. -/
theorem setw_setw (a : App) (i : ℕ) (x y : Wallet) :
    setw (setw a i x) i y = setw a i y := by
  show ({ a with wallets := (a.wallets.set i x).set i y } : App) = _
  rw [List.set_set]
  rfl

/-- Closed form of a successful wallet-to-wallet transfer (both endpoints
distinct from each other and from the issuer, positive amount, sufficient
settled balance). -/
theorem send_success (a : App) (t : ℝ) (i j : ℕ) (amount : ℝ)
    (hi : i < a.wallets.length) (hij : ¬ i = j) (hi0 : ¬ i = 0)
    (hj0 : ¬ j = 0) (hpos : 0 < amount)
    (hsuf : ¬ (gw (settle a t i) i).balance < amount) :
    send a t i j amount =
      (let a1 := settle a t i
       let w := gw a1 i
       let fee := amount / 1000
       let fl := min fee w.locked
       let fv := min (fee - fl) w.vested
       let fb := min (fee - fl - fv) (w.balance - amount)
       let rem := fee - fl - fv - fb
       let a4 := setw (setw a1 i
         { w with balance := w.balance - amount - fb,
                  sent := w.sent + amount, locked := w.locked - fl,
                  vested := w.vested - fv })
         0 { gw a1 0 with balance := (gw a1 0).balance + fee }
       let a6 := { a4 with contributions :=
         if j = MILLIONAIRE_IDX then
           a4.contributions.set i (a4.contributions.getD i 0 + (amount - rem))
         else a4.contributions }
       let a7 := settle a6 t j
       let wj := gw a7 j
       let a8 :=
         if j = 0 ∨ wj.contract then
           setw a7 j { wj with balance := wj.balance + (amount - rem) }
         else
           setw a7 j { wj with balance := wj.balance + (amount - rem) / 3,
                               locked := wj.locked + 2 * (amount - rem) / 3 }
       ({ a8 with log :=
         a8.log ++ [⟨(gw a8 i).name, (gw a8 j).name, amount - rem, fee, t⟩] },
        none)) := by
  have hi1 : i < (settle a t i).wallets.length := by
    rw [settle_length]; exact hi
  simp only [send, if_neg hij, if_neg (not_le.mpr hpos), if_neg hsuf,
    if_pos (And.intro hi0 hj0)]
  rw [gw_setw_self _ _ _ hi1]
  rw [gw_setw_ne _ i 0 _ hi0, gw_setw_ne _ i 0 _ hi0, setw_setw]

/-- Closed form of a successful early settlement (non-issuer wallet,
non-negative amount, claim within the allowed ceiling). -/
theorem early_success (a : App) (t : ℝ) (i : ℕ) (amount : ℝ)
    (hi : i < a.wallets.length) (h0 : ¬ i = 0) (hneg : ¬ amount < 0)
    (hok : ¬ (0 < amount ∧ 3 * (gw (settle a t i) i).locked / 4 < amount)) :
    early_settle a t i amount =
      (let a1 := settle a t i
       let w := gw a1 i
       let a3 :=
         if 0 < amount then
           setw (setw a1 i
             { w with balance := w.balance + w.vested + amount, vested := 0,
                      locked := w.locked - (amount + amount / 3) })
             0 { gw a1 0 with balance := (gw a1 0).balance + amount / 3 }
         else setw a1 i { w with balance := w.balance + w.vested, vested := 0 }
       ({ a3 with log := if 0 < w.vested + amount then
           a3.log ++ [⟨(gw a3 i).name, (gw a3 i).name, w.vested + amount,
                       if 0 < amount then amount / 3 else 0, t⟩]
         else a3.log }, none)) := by
  have hi1 : i < (settle a t i).wallets.length := by
    rw [settle_length]; exact hi
  simp only [early_settle, if_neg h0, if_neg hneg, if_neg hok]
  by_cases hpos : 0 < amount
  · simp only [if_pos hpos, gw_setw_self _ _ _ hi1,
      gw_setw_ne _ i 0 _ h0, setw_setw]
  · simp only [if_neg hpos, gw_setw_self _ _ _ hi1]

/-- Well-formedness only depends on the wallet table. -/
theorem WF_of_wallets_eq (a b : App) (t : ℝ) (h : b.wallets = a.wallets)
    (hW : WF a t) : WF b t := by
  intro k hk
  have hg : gw b k = gw a k := by simp [gw, h]
  rw [h] at hk
  rw [hg]
  exact hW k hk


/-- A successful wallet-to-wallet transfer produces exactly the
send_result state. -/
theorem send_eq (a : App) (t : ℝ) (i j : ℕ) (amount : ℝ)
    (hi : i < a.wallets.length) (hij : ¬ i = j) (hi0 : ¬ i = 0)
    (hj0 : ¬ j = 0) (hpos : 0 < amount)
    (hsuf : ¬ (gw (settle a t i) i).balance < amount) :
    send a t i j amount = (send_result a t i j amount, none) := by
  rw [send_success a t i j amount hi hij hi0 hj0 hpos hsuf]
  rfl

/-- A successful early settlement produces exactly the early_result
state. -/
theorem early_settle_eq (a : App) (t : ℝ) (i : ℕ) (amount : ℝ)
    (hi : i < a.wallets.length) (h0 : ¬ i = 0) (hneg : ¬ amount < 0)
    (hok : ¬ (0 < amount ∧ 3 * (gw (settle a t i) i).locked / 4 < amount)) :
    early_settle a t i amount = (early_result a t i amount, none) := by
  rw [early_success a t i amount hi h0 hneg hok]
  rfl

/-- Changing only the log preserves every wallet read. -/
theorem gw_withLog (a : App) (L : List TxLog) (k : ℕ) :
    gw { a with log := L } k = gw a k := rfl

/-- Changing only the contributions preserves every wallet read. -/
theorem gw_withContr (a : App) (c : List ℝ) (k : ℕ) :
    gw { a with contributions := c } k = gw a k := rfl

/-- Changing only the log preserves the wallet table. -/
theorem wallets_withLog (a : App) (L : List TxLog) :
    ({ a with log := L } : App).wallets = a.wallets := rfl

/-- Changing only the contributions preserves the wallet table. -/
theorem wallets_withContr (a : App) (c : List ℝ) :
    ({ a with contributions := c } : App).wallets = a.wallets := rfl

/-- Well-formedness survives a log replacement. -/
theorem WF_withLog (a : App) (t : ℝ) (L : List TxLog) (hW : WF a t) :
    WF { a with log := L } t :=
  WF_of_wallets_eq a _ t rfl hW

/-- Well-formedness survives a contributions replacement. -/
theorem WF_withContr (a : App) (t : ℝ) (c : List ℝ) (hW : WF a t) :
    WF { a with contributions := c } t :=
  WF_of_wallets_eq a _ t rfl hW

/-- Well-formedness survives writing a wallet whose fields satisfy the
invariant. -/
theorem WF_setw (a : App) (t : ℝ) (k : ℕ) (w : Wallet) (hW : WF a t)
    (hl : 0 ≤ w.locked) (hv : 0 ≤ w.vested) (hb : ¬ k = 0 → 0 ≤ w.balance)
    (ht : w.t ≤ t) : WF (setw a k w) t := by
  intro m hm
  rw [setw_length] at hm
  by_cases hmk : m = k
  · subst hmk
    rw [gw_setw_self _ _ _ hm]
    exact ⟨hl, hv, hb, ht⟩
  · rw [gw_setw_ne _ _ _ _ (fun h => hmk h.symm)]
    exact hW m hm

/-- A self-transfer is routed to early settlement. -/
theorem send_self (a : App) (t : ℝ) (i : ℕ) (amount : ℝ) :
    send a t i i amount = early_settle a t i amount := by
  unfold send
  rw [if_pos rfl]

/-- A non-positive amount between distinct wallets is rejected with no state
change. -/
theorem send_nonpos (a : App) (t : ℝ) (i j : ℕ) (amount : ℝ)
    (hij : ¬ i = j) (hle : amount ≤ 0) :
    send a t i j amount = (a, some ("Amount must be positive")) := by
  simp only [send, if_neg hij, if_pos hle]

/-- An overdraft is rejected after the sender has been settled: the returned
state is exactly the settled state. -/
theorem send_insufficient (a : App) (t : ℝ) (i j : ℕ) (amount : ℝ)
    (hij : ¬ i = j) (hpos : 0 < amount)
    (hsuf : (gw (settle a t i) i).balance < amount) :
    send a t i j amount = (settle a t i, some ("Insufficient balance")) := by
  simp only [send, if_neg hij, if_neg (not_le.mpr hpos), if_pos hsuf]

/-- Early settlement of the issuer is rejected with no state change. -/
theorem early_settle_issuer (a : App) (t : ℝ) (amount : ℝ) :
    early_settle a t 0 amount = (a, some ("Koi cannot settle")) := by
  unfold early_settle
  rw [if_pos rfl]

/-- A negative early-settlement amount is rejected with no state change. -/
theorem early_settle_neg (a : App) (t : ℝ) (i : ℕ) (amount : ℝ)
    (h0 : ¬ i = 0) (hneg : amount < 0) :
    early_settle a t i amount = (a, some ("Amount must be non-negative")) := by
  simp only [early_settle, if_neg h0, if_pos hneg]

/-- A claim beyond three quarters of the settled locked amount is rejected:
the returned state is exactly the settled state — in particular the vested
sub-balance has not been moved to spendable balance. -/
theorem early_settle_exceeds (a : App) (t : ℝ) (i : ℕ) (amount : ℝ)
    (h0 : ¬ i = 0) (hneg : ¬ amount < 0)
    (hgt : 0 < amount ∧ 3 * (gw (settle a t i) i).locked / 4 < amount) :
    early_settle a t i amount = (settle a t i, some ("Exceeds available")) := by
  simp only [early_settle, if_neg h0, if_neg hneg, if_pos hgt]

/-- A successful transfer with the issuer at one endpoint produces exactly
the send_result0 state. -/
theorem send_eq_nofee (a : App) (t : ℝ) (i j : ℕ) (amount : ℝ)
    (hij : ¬ i = j) (hpos : 0 < amount)
    (hsuf : ¬ (gw (settle a t i) i).balance < amount)
    (hnofee : ¬ (i ≠ 0 ∧ j ≠ 0)) :
    send a t i j amount = (send_result0 a t i j amount, none) := by
  simp only [send, if_neg hij, if_neg (not_le.mpr hpos), if_neg hsuf,
    if_neg hnofee]
  rfl

/-- Well-formedness is preserved by the recipient-credit step of a
transfer: either a direct credit or a one-third / two-thirds split. -/
theorem WF_credit (b : App) (t : ℝ) (j : ℕ) (sa : ℝ) (hW : WF b t)
    (hj : j < b.wallets.length) (hsa : 0 ≤ sa) :
    WF (if j = 0 ∨ (gw b j).contract then
          setw b j { gw b j with balance := (gw b j).balance + sa }
        else
          setw b j { gw b j with balance := (gw b j).balance + sa / 3,
                                 locked := (gw b j).locked + 2 * sa / 3 }) t := by
  obtain ⟨hl, hv, hb, ht⟩ := hW j hj
  split
  · refine WF_setw b t j _ hW ?_ ?_ ?_ ?_ <;> dsimp only
    · exact hl
    · exact hv
    · intro hj0
      have := hb hj0
      linarith
    · exact ht
  · refine WF_setw b t j _ hW ?_ ?_ ?_ ?_ <;> dsimp only
    · linarith
    · exact hv
    · intro hj0
      have := hb hj0
      linarith
    · exact ht

/-- Well-formedness is preserved through every branch of early
settlement. -/
theorem WF_early_settle (a : App) (t : ℝ) (i : ℕ) (amount : ℝ) (hW : WF a t)
    (hi : i < a.wallets.length) : WF (early_settle a t i amount).1 t := by
  by_cases h0 : i = 0
  · subst h0
    rw [early_settle_issuer]
    exact hW
  by_cases hneg : amount < 0
  · rw [early_settle_neg a t i amount h0 hneg]
    exact hW
  have hW1 : WF (settle a t i) t := WF_settle a t i hW hi
  have hi1 : i < (settle a t i).wallets.length := by
    rw [settle_length]
    exact hi
  have h0len : 0 < (settle a t i).wallets.length :=
    Nat.lt_of_lt_of_le (Nat.pos_of_ne_zero h0) (le_of_lt hi1)
  by_cases hok : 0 < amount ∧ 3 * (gw (settle a t i) i).locked / 4 < amount
  · rw [early_settle_exceeds a t i amount h0 hneg hok]
    exact hW1
  rw [early_settle_eq a t i amount hi h0 hneg hok]
  show WF (early_result a t i amount) t
  obtain ⟨hl1, hv1, hb1, ht1⟩ := hW1 i hi1
  obtain ⟨hl0, hv0, _, ht0⟩ := hW1 0 h0len
  simp only [early_result]
  refine WF_withLog _ t _ ?_
  split
  · rename_i hpos
    have h34 : amount + amount / 3 ≤ (gw (settle a t i) i).locked := by
      rcases not_and_or.mp hok with h | h
      · exact absurd hpos h
      · have := not_lt.mp h
        linarith
    refine WF_setw _ t 0 _ (WF_setw _ t i _ hW1 ?_ ?_ ?_ ?_) ?_ ?_ ?_ ?_ <;>
      dsimp only
    · linarith
    · exact le_refl 0
    · intro _
      have := hb1 h0
      linarith
    · exact ht1
    · exact hl0
    · exact hv0
    · intro h
      exact absurd rfl h
    · exact ht0
  · refine WF_setw _ t i _ hW1 ?_ ?_ ?_ ?_ <;> dsimp only
    · exact hl1
    · exact le_refl 0
    · intro _
      have := hb1 h0
      linarith
    · exact ht1

/-- Well-formedness is preserved through every branch of a transfer. -/
theorem WF_send (a : App) (t : ℝ) (i j : ℕ) (amount : ℝ) (hW : WF a t)
    (hi : i < a.wallets.length) (hj : j < a.wallets.length) :
    WF (send a t i j amount).1 t := by
  by_cases hij : i = j
  · subst hij
    rw [send_self]
    exact WF_early_settle a t i amount hW hi
  by_cases hle : amount ≤ 0
  · rw [send_nonpos a t i j amount hij hle]
    exact hW
  have hpos : 0 < amount := lt_of_not_le hle
  have hW1 : WF (settle a t i) t := WF_settle a t i hW hi
  have hi1 : i < (settle a t i).wallets.length := by
    rw [settle_length]
    exact hi
  by_cases hsuf : (gw (settle a t i) i).balance < amount
  · rw [send_insufficient a t i j amount hij hpos hsuf]
    exact hW1
  obtain ⟨hl1, hv1, hb1, ht1⟩ := hW1 i hi1
  by_cases hfee : i ≠ 0 ∧ j ≠ 0
  · obtain ⟨hi0, hj0⟩ := hfee
    rw [send_eq a t i j amount hi hij hi0 hj0 hpos hsuf]
    show WF (send_result a t i j amount) t
    have h0len : 0 < (settle a t i).wallets.length :=
      Nat.lt_of_lt_of_le (Nat.pos_of_ne_zero hi0) (le_of_lt hi1)
    obtain ⟨hl0, hv0, _, ht0⟩ := hW1 0 h0len
    have hbal : amount ≤ (gw (settle a t i) i).balance := not_lt.mp hsuf
    simp only [send_result]
    set w1 : Wallet := gw (settle a t i) i with hw1
    set fl : ℝ := min (amount / 1000) w1.locked with hfl
    have hfl0 : 0 ≤ fl := le_min (by positivity) hl1
    have hfl1 : fl ≤ w1.locked := min_le_right _ _
    have hfl2 : fl ≤ amount / 1000 := min_le_left _ _
    set fv : ℝ := min (amount / 1000 - fl) w1.vested with hfv
    have hfv0 : 0 ≤ fv := le_min (by linarith) hv1
    have hfv1 : fv ≤ w1.vested := min_le_right _ _
    have hfv2 : fv ≤ amount / 1000 - fl := min_le_left _ _
    set fb : ℝ := min (amount / 1000 - fl - fv) (w1.balance - amount) with hfb
    have hfb0 : 0 ≤ fb := le_min (by linarith) (by linarith)
    have hfb1 : fb ≤ w1.balance - amount := min_le_right _ _
    have hfb2 : fb ≤ amount / 1000 - fl - fv := min_le_left _ _
    refine WF_withLog _ t _ ?_
    refine WF_credit _ t j _ ?_ ?_ ?_
    · refine WF_settle _ t j (WF_withContr _ t _ (WF_setw _ t 0 _
        (WF_setw _ t i _ hW1 ?_ ?_ ?_ ?_) ?_ ?_ ?_ ?_)) ?_ <;> dsimp only
      · linarith
      · linarith
      · intro _
        linarith
      · exact ht1
      · exact hl0
      · exact hv0
      · intro h
        exact absurd rfl h
      · exact ht0
      · simp only [wallets_withContr, setw_length, settle_length]
        exact hj
    · simp only [settle_length, wallets_withContr, setw_length]
      exact hj
    · linarith
  · rw [send_eq_nofee a t i j amount hij hpos hsuf hfee]
    show WF (send_result0 a t i j amount) t
    have hbal : amount ≤ (gw (settle a t i) i).balance := not_lt.mp hsuf
    simp only [send_result0]
    refine WF_withLog _ t _ ?_
    refine WF_credit _ t j _ ?_ ?_ ?_
    · refine WF_settle _ t j (WF_withContr _ t _
        (WF_setw _ t i _ hW1 ?_ ?_ ?_ ?_)) ?_ <;> dsimp only
      · exact hl1
      · exact hv1
      · intro _
        linarith
      · exact ht1
      · simp only [wallets_withContr, setw_length, settle_length]
        exact hj
    · simp only [settle_length, wallets_withContr, setw_length]
      exact hj
    · exact le_of_lt hpos

/-- The positive-contribution filter is empty exactly when no contribution
is positive. -/
theorem filter_pos_isEmpty_iff (l : List ℝ) :
    ((l.enum.filter fun p => decide (0 < p.2)).isEmpty = true) ↔
      ∀ c ∈ l, ¬ 0 < c := by
  rw [List.isEmpty_iff, List.filter_eq_nil_iff]
  constructor
  · intro h c hc
    obtain ⟨n, hn⟩ := List.mem_iff_get?.mp hc
    have hmem : (n, c) ∈ l.enum := List.mem_enum_iff_get?.mpr hn
    have := h (n, c) hmem
    simpa using this
  · intro h p hp
    have h2 : p.2 ∈ l := List.get?_mem (List.mem_enum_iff_get?.mp hp)
    simpa using h p.2 h2

/-- The index sampled from the positive-contribution weights is a valid
contribution index. -/
theorem winner_lt (l : List ℝ) (k : ℕ)
    (hne : ¬ ((l.enum.filter fun p => decide (0 < p.2)).isEmpty = true)) :
    ((l.enum.filter fun p => decide (0 < p.2)).getD
      (k % (l.enum.filter fun p => decide (0 < p.2)).length) (0, 0)).1 <
      l.length := by
  have hlen : 0 < (l.enum.filter fun p => decide (0 < p.2)).length := by
    cases h : (l.enum.filter fun p => decide (0 < p.2)) with
    | nil => exact absurd (by rw [h]; rfl) hne
    | cons x xs => simp [h]
  have hidx : k % (l.enum.filter fun p => decide (0 < p.2)).length <
      (l.enum.filter fun p => decide (0 < p.2)).length := Nat.mod_lt _ hlen
  rw [List.getD_eq_getElem?_getD, List.getElem?_eq_getElem hidx]
  simp only [Option.getD_some]
  have hmem := List.getElem_mem hidx
  have henum := (List.mem_filter.mp hmem).1
  have hget := List.mem_enum_iff_get?.mp henum
  by_contra hn
  rw [List.get?_eq_none.mpr (le_of_not_lt hn)] at hget
  exact Option.noConfusion hget

/-- Well-formedness is preserved by the lottery check. -/
theorem WF_check_millionaire (a : App) (t : ℝ) (pick : ℕ) (hW : WF a t)
    (hm : MILLIONAIRE_IDX < a.wallets.length)
    (hc : a.contributions.length ≤ a.wallets.length) :
    WF (check_millionaire a t pick) t := by
  by_cases h1 : (gw a MILLIONAIRE_IDX).balance ≤ MILLIONAIRE_THRESHOLD
  · simp only [check_millionaire, if_pos h1]
    exact hW
  by_cases h2 : ((a.contributions.enum.filter fun p =>
      decide (0 < p.2)).isEmpty = true)
  · simp only [check_millionaire, if_neg h1, if_pos h2]
    exact hW
  · simp only [check_millionaire, if_neg h1, if_neg h2]
    refine WF_withContr _ t _ ?_
    refine WF_send a t MILLIONAIRE_IDX _ MILLIONAIRE_PAYOUT hW hm ?_
    exact lt_of_lt_of_le (winner_lt a.contributions pick h2) hc

/-- Reading past the end of the list yields the default. -/
theorem getD_oob {α : Type _} :
    ∀ (l : List α) (i : ℕ) (d : α), l.length ≤ i → l.getD i d = d
  | [], _, _, _ => rfl
  | _ :: _, 0, _, h => absurd h (Nat.not_succ_le_zero _)
  | _ :: l, i + 1, d, h => getD_oob l i d (Nat.le_of_succ_le_succ h)

/-- Writing past the end of the wallet table is a no-op. -/
theorem setw_oob (a : App) (i : ℕ) (w : Wallet)
    (h : a.wallets.length ≤ i) : setw a i w = a := by
  show ({ a with wallets := a.wallets.set i w } : App) = a
  rw [List.set_eq_of_length_le h]

/-- Settling an out-of-range index is a complete no-op (the Rust code never
does this: it would panic instead). -/
theorem settle_oob (a : App) (t : ℝ) (i : ℕ)
    (h : a.wallets.length ≤ i) : settle a t i = a := by
  by_cases h0 : i = 0
  · subst h0
    exact settle_issuer a t
  have hgw : gw a i = dw := getD_oob a.wallets i dw h
  have hc : (gw a i).contract = false := by rw [hgw]; rfl
  rw [settle_eq a t i h0 hc]
  have hv : vestOf (gw a i) t = 0 := by
    rw [hgw]
    simp [vestOf, dw]
  have hint : interestOf a (gw a i) t = 0 := by
    rw [hgw] at hv ⊢
    unfold interestOf
    rw [hv]
    norm_num [dw]
  rw [hv, hint, setw_oob _ i _ h]
  have e2 : ({ gw a 0 with balance := (gw a 0).balance - 0 } : Wallet)
      = gw a 0 := by simp
  rw [e2, setw_self]

/-- Total funds ignore the log. -/
theorem totalFunds_withLog (a : App) (L : List TxLog) :
    totalFunds { a with log := L } = totalFunds a := rfl

/-- Total funds ignore the contribution accumulators. -/
theorem totalFunds_withContr (a : App) (c : List ℝ) :
    totalFunds { a with contributions := c } = totalFunds a := rfl

/-- Effect of one wallet write on total funds. -/
theorem totalFunds_setw (a : App) (i : ℕ) (w : Wallet)
    (hi : i < a.wallets.length) :
    totalFunds (setw a i w) = totalFunds a - fnd (gw a i) + fnd w :=
  map_sum_set fnd dw a.wallets i w hi

/-- The recipient-credit step increases total funds by exactly the
transmitted amount. -/
theorem totalFunds_credit (b : App) (j : ℕ) (sa : ℝ)
    (hj : j < b.wallets.length) :
    totalFunds (if j = 0 ∨ (gw b j).contract then
        setw b j { gw b j with balance := (gw b j).balance + sa }
      else
        setw b j { gw b j with balance := (gw b j).balance + sa / 3,
                               locked := (gw b j).locked + 2 * sa / 3 }) =
      totalFunds b + sa := by
  split <;> rw [totalFunds_setw _ _ _ hj] <;> simp only [fnd] <;> ring

/-- A successful fee-charging transfer conserves the total funds of the
ledger: the amount debited from the sender across balance, locked and
vested reappears exactly as the recipient's credit plus the issuer's fee. -/
theorem totalFunds_send_result (a : App) (t : ℝ) (i j : ℕ) (amount : ℝ)
    (hi : i < a.wallets.length) (hj : j < a.wallets.length)
    (hij : ¬ i = j) (hi0 : ¬ i = 0) (hj0 : ¬ j = 0) :
    totalFunds (send_result a t i j amount) = totalFunds a := by
  have hi1 : i < (settle a t i).wallets.length := by
    rw [settle_length]
    exact hi
  have h0len : 0 < (settle a t i).wallets.length :=
    Nat.lt_of_lt_of_le (Nat.pos_of_ne_zero hi0) (le_of_lt hi1)
  simp only [send_result]
  rw [totalFunds_withLog, totalFunds_credit _ j _ ?hjc,
    totalFunds_settle _ t j ?hj2, totalFunds_withContr,
    totalFunds_setw _ 0 _ ?h0c, gw_setw_ne _ i 0 _ hi0,
    totalFunds_setw _ i _ hi1, totalFunds_settle a t i hi]
  · simp only [fnd]
    ring
  case hjc =>
    simp only [settle_length, wallets_withContr, setw_length]
    exact hj
  case hj2 =>
    simp only [wallets_withContr, setw_length, settle_length]
    exact hj
  case h0c =>
    rw [setw_length]
    exact h0len

/-- Reading a wallet other than the one credited, through either branch of
the recipient-credit step. -/
theorem gw_ite_setw (c : Prop) [Decidable c] (b : App) (j i : ℕ)
    (x y : Wallet) (h : ¬ j = i) :
    gw (if c then setw b j x else setw b j y) i = gw b i := by
  split <;> rw [gw_setw_ne _ _ _ _ h]

/-- The sender's wallet after a successful fee-charging transfer: the
amount is debited from balance, and the 0.1% fee is drawn from locked, then
vested, then the remaining balance. -/
theorem gw_send_result_sender (a : App) (t : ℝ) (i j : ℕ) (amount : ℝ)
    (hi : i < a.wallets.length) (hij : ¬ i = j) (hi0 : ¬ i = 0) :
    gw (send_result a t i j amount) i =
      { gw (settle a t i) i with
          balance := (gw (settle a t i) i).balance - amount
            - min (amount / 1000
                   - min (amount / 1000) (gw (settle a t i) i).locked
                   - min (amount / 1000
                          - min (amount / 1000) (gw (settle a t i) i).locked)
                       (gw (settle a t i) i).vested)
                ((gw (settle a t i) i).balance - amount),
          sent := (gw (settle a t i) i).sent + amount,
          locked := (gw (settle a t i) i).locked
            - min (amount / 1000) (gw (settle a t i) i).locked,
          vested := (gw (settle a t i) i).vested
            - min (amount / 1000
                   - min (amount / 1000) (gw (settle a t i) i).locked)
                (gw (settle a t i) i).vested } := by
  have hi1 : i < (settle a t i).wallets.length := by
    rw [settle_length]
    exact hi
  simp only [send_result]
  rw [gw_withLog, gw_ite_setw _ _ j i _ _ (fun h => hij h.symm),
    settle_gw_other _ t j i hij hi0, gw_withContr,
    gw_setw_ne _ 0 i _ (fun h => hi0 h.symm), gw_setw_self _ _ _ hi1]

/-- The wallet after one settlement step on a non-issuer, non-contract
wallet; convenience form of settle_gw_self for in-range indices, plus the
issuer debit and the frame conditions, all in one statement. -/
theorem settle_appA1 : settle appA 0 1 = appA := by
  apply settle_noop <;>
    norm_num [gw, appA, List.getD_cons_succ, List.getD_cons_zero]

/-- Settlement of wallet 2 of appA at time 0 is a no-op. -/
theorem settle_appA2 : settle appA 0 2 = appA := by
  apply settle_noop <;>
    norm_num [gw, appA, List.getD_cons_succ, List.getD_cons_zero]

/-- Settlement of wallet 1 of appD at time 0 is a no-op. -/
theorem settle_appD1 : settle appD 0 1 = appD := by
  apply settle_noop <;>
    norm_num [gw, appD, List.getD_cons_succ, List.getD_cons_zero]

/-- C7: for every wallet whose locked sub-balance is non-negative,
settlement at the wallet's own timestamp (zero elapsed time) changes
nothing at all, and settlement at a fixed timestamp is idempotent: settling
twice equals settling once. -/
theorem settle_zero_elapsed_idempotent (a : App) (t : ℝ) (i : ℕ)
    (hl : 0 ≤ (gw a i).locked) :
    ((gw a i).t = t → settle a t i = a) ∧
    settle (settle a t i) t i = settle a t i := by
  refine ⟨fun ht => settle_noop a t i ht hl, ?_⟩
  by_cases h0 : i = 0
  · subst h0
    rw [settle_issuer, settle_issuer]
  by_cases hc : (gw a i).contract = true
  · rw [settle_contract a t i hc, settle_contract a t i hc]
  have hc' : (gw a i).contract = false := by
    cases h : (gw a i).contract
    · rfl
    · exact absurd h hc
  by_cases hi : i < a.wallets.length
  · apply settle_noop
    · rw [settle_gw_self a t i hi h0 hc']
    · rw [settle_gw_self a t i hi h0 hc']
      have := vestOf_le (gw a i) t
      dsimp only
      linarith
  · rw [settle_oob a t i (le_of_not_lt hi), settle_oob a t i (le_of_not_lt hi)]

/-- Witness for C7 on a concrete ledger: wallet D of appD has non-negative
locked funds, settling it at its own timestamp changes nothing, and
settling twice equals settling once. -/
theorem settle_zero_elapsed_idempotent_witness :
    0 ≤ (gw appD 1).locked ∧
    (((gw appD 1).t = 0 → settle appD 0 1 = appD) ∧
     settle (settle appD 0 1) 0 1 = settle appD 0 1) :=
  ⟨by norm_num [gw, appD, List.getD_cons_succ, List.getD_cons_zero],
   settle_zero_elapsed_idempotent appD 0 1
     (by norm_num [gw, appD, List.getD_cons_succ, List.getD_cons_zero])⟩

/-- C8 (amended): settling the issuer wallet is a complete no-op — the
source returns before touching any field, the lastSettled timestamp
included. -/
theorem issuer_settle_complete_noop (a : App) (t : ℝ) : settle a t 0 = a :=
  settle_issuer a t

/-- Counterexample to C8 as stated: settling the issuer of appB at time 5
leaves its lastSettled timestamp at 0, not at the current time 5. -/
theorem issuer_settle_timestamp_cex : ¬ (gw (settle appB 5 0) 0).t = 5 := by
  rw [settle_issuer]
  norm_num [gw, appB, List.getD_cons_zero]

/-- C5 (amended): snapshot packages the wallet table and the log exactly as
stored — without settling anything — together with the configured rate
constants and the current time. -/
theorem snapshot_returns_raw_state (a : App) (t : ℝ) :
    (snapshot a t).wallets = a.wallets ∧ (snapshot a t).log = a.log ∧
    (snapshot a t).rate = RATE ∧ (snapshot a t).prate = PRATE ∧
    (snapshot a t).spy = SPY ∧ (snapshot a t).supply = TOTAL_SUPPLY ∧
    (snapshot a t).k0 = TOTAL_SUPPLY - GIFT_ALICE - GIFT_REST ∧
    (snapshot a t).t = t :=
  ⟨rfl, rfl, rfl, rfl, rfl, rfl, rfl, rfl⟩

/-- Counterexample to C5 as stated: the snapshot of appB at time 5 exposes
wallet Z with its stale timestamp 0, while the settled wallet would carry
timestamp 5 — the snapshot has not forced settlement. -/
theorem snapshot_stale_cex :
    ((snapshot appB 5).wallets.getD 1 dw).t = 0 ∧
    (gw (settle appB 5 1) 1).t = 5 ∧ ¬ (0 : ℝ) = 5 := by
  refine ⟨?_, ?_, by norm_num⟩
  · norm_num [snapshot, appB, List.getD_cons_succ, List.getD_cons_zero]
  · rw [settle_gw_self appB 5 1 (by norm_num [appB]) (by norm_num)
      (by norm_num [gw, appB, List.getD_cons_succ, List.getD_cons_zero])]

/-- C9: the lottery check is a no-op when the tracked wallet's balance is
at or below the threshold, and when no contribution is positive; and
whenever both payout conditions hold, every contribution accumulator is
exactly zero afterwards, whatever the payout transfer did. -/
theorem lottery_noop_and_reset (a : App) (t : ℝ) (pick : ℕ) :
    ((gw a MILLIONAIRE_IDX).balance ≤ MILLIONAIRE_THRESHOLD →
      check_millionaire a t pick = a) ∧
    ((∀ c ∈ a.contributions, ¬ 0 < c) → check_millionaire a t pick = a) ∧
    (MILLIONAIRE_THRESHOLD < (gw a MILLIONAIRE_IDX).balance →
      (∃ c ∈ a.contributions, 0 < c) →
      ∀ c ∈ (check_millionaire a t pick).contributions, c = 0) := by
  refine ⟨?_, ?_, ?_⟩
  · intro h
    simp only [check_millionaire, if_pos h]
  · intro h
    by_cases h1 : (gw a MILLIONAIRE_IDX).balance ≤ MILLIONAIRE_THRESHOLD
    · simp only [check_millionaire, if_pos h1]
    have h2 : ((a.contributions.enum.filter fun p =>
        decide (0 < p.2)).isEmpty = true) :=
      (filter_pos_isEmpty_iff a.contributions).mpr h
    simp only [check_millionaire, if_neg h1, if_pos h2]
  · intro h1 h2
    obtain ⟨c0, hc0, hc0pos⟩ := h2
    have hne : ¬ ((a.contributions.enum.filter fun p =>
        decide (0 < p.2)).isEmpty = true) := by
      intro habs
      exact ((filter_pos_isEmpty_iff a.contributions).mp habs) c0 hc0 hc0pos
    simp only [check_millionaire, if_neg (not_le.mpr h1), if_neg hne]
    intro c hc
    obtain ⟨x, _, hx⟩ := List.mem_map.mp hc
    exact hx.symm

/-- Witness for C9: the three cases on concrete ledgers — appA has no
millionaire wallet above threshold, appM0 has no positive contribution,
and appM pays out and resets all accumulators to zero. -/
theorem lottery_noop_and_reset_witness :
    ((gw appA MILLIONAIRE_IDX).balance ≤ MILLIONAIRE_THRESHOLD ∧
      check_millionaire appA 0 0 = appA) ∧
    ((∀ c ∈ appM0.contributions, ¬ 0 < c) ∧
      check_millionaire appM0 0 0 = appM0) ∧
    (MILLIONAIRE_THRESHOLD < (gw appM MILLIONAIRE_IDX).balance ∧
      (∃ c ∈ appM.contributions, 0 < c) ∧
      ∀ c ∈ (check_millionaire appM 0 0).contributions, c = 0) := by
  have h1 : (gw appA MILLIONAIRE_IDX).balance ≤ MILLIONAIRE_THRESHOLD := by
    norm_num [gw, appA, MILLIONAIRE_IDX, MILLIONAIRE_THRESHOLD, dw,
      List.getD_cons_succ, List.getD_cons_zero]
  have h2 : ∀ c ∈ appM0.contributions, ¬ 0 < c := by
    intro c hc
    simp only [appM0, appM, List.mem_cons, List.not_mem_nil, or_false] at hc
    rcases hc with h | h | h | h | h | h | h <;> subst h <;> norm_num
  have h3 : MILLIONAIRE_THRESHOLD < (gw appM MILLIONAIRE_IDX).balance := by
    norm_num [gw, appM, MILLIONAIRE_IDX, MILLIONAIRE_THRESHOLD,
      List.getD_cons_succ, List.getD_cons_zero]
  have h4 : ∃ c ∈ appM.contributions, 0 < c := by
    refine ⟨7, ?_, by norm_num⟩
    simp [appM]
  exact ⟨⟨h1, (lottery_noop_and_reset appA 0 0).1 h1⟩,
    ⟨h2, (lottery_noop_and_reset appM0 0 0).2.1 h2⟩,
    ⟨h3, h4, (lottery_noop_and_reset appM 0 0).2.2 h3 h4⟩⟩

/-- C1 (amended): a rejected operation applies none of the
operation-specific mutations — on the amount-validation errors the state is
exactly the pre-call state, and on InsufficientFunds / ExceedsAvailable the
state is exactly the pre-call state with the source wallet settled: the
settlement performed before the failing validation persists. -/
theorem rejected_ops_state (a : App) (t : ℝ) (i j : ℕ) (amount : ℝ) :
    (¬ i = j → amount ≤ 0 →
      send a t i j amount = (a, some ("Amount must be positive"))) ∧
    (¬ i = j → 0 < amount → (gw (settle a t i) i).balance < amount →
      send a t i j amount = (settle a t i, some ("Insufficient balance"))) ∧
    (early_settle a t 0 amount = (a, some ("Koi cannot settle"))) ∧
    (¬ i = 0 → amount < 0 →
      early_settle a t i amount = (a, some ("Amount must be non-negative"))) ∧
    (¬ i = 0 → 0 < amount → 3 * (gw (settle a t i) i).locked / 4 < amount →
      early_settle a t i amount = (settle a t i, some ("Exceeds available"))) :=
  ⟨fun hij hle => send_nonpos a t i j amount hij hle,
   fun hij hpos hsuf => send_insufficient a t i j amount hij hpos hsuf,
   early_settle_issuer a t amount,
   fun h0 hneg => early_settle_neg a t i amount h0 hneg,
   fun h0 hpos hgt => early_settle_exceeds a t i amount h0
     (not_lt.mpr (le_of_lt hpos)) ⟨hpos, hgt⟩⟩

/-- Witness for C1: all five rejection branches exercised on concrete
ledgers (settlement at time 0 is a no-op there, so the settled states are
written out explicitly). -/
theorem rejected_ops_state_witness :
    (send appA 0 1 2 (-1) = (appA, some ("Amount must be positive"))) ∧
    ((gw (settle appA 0 2) 2).balance < 5 ∧
      send appA 0 2 1 5 = (settle appA 0 2, some ("Insufficient balance"))) ∧
    (early_settle appA 0 0 5 = (appA, some ("Koi cannot settle"))) ∧
    (early_settle appA 0 1 (-1) =
      (appA, some ("Amount must be non-negative"))) ∧
    (3 * (gw (settle appA 0 1) 1).locked / 4 < 5 ∧
      early_settle appA 0 1 5 = (settle appA 0 1, some ("Exceeds available"))) := by
  have hb : (gw (settle appA 0 2) 2).balance < 5 := by
    rw [settle_appA2]
    norm_num [gw, appA, List.getD_cons_succ, List.getD_cons_zero]
  have hl : 3 * (gw (settle appA 0 1) 1).locked / 4 < 5 := by
    rw [settle_appA1]
    norm_num [gw, appA, List.getD_cons_succ, List.getD_cons_zero]
  exact ⟨(rejected_ops_state appA 0 1 2 (-1)).1 (by norm_num) (by norm_num),
    ⟨hb, (rejected_ops_state appA 0 2 1 5).2.1 (by norm_num) (by norm_num) hb⟩,
    (rejected_ops_state appA 0 0 0 5).2.2.1,
    (rejected_ops_state appA 0 1 0 (-1)).2.2.2.1 (by norm_num) (by norm_num),
    ⟨hl, (rejected_ops_state appA 0 1 0 5).2.2.2.2 (by norm_num)
      (by norm_num) hl⟩⟩

/-- Counterexample to C1 as stated: an InsufficientFunds rejection does not
restore the pre-call state — the failed transfer from appB's empty wallet Z
at time 5 leaves Z's lastSettled at 5, though it was 0 before the call. -/
theorem rejected_ops_state_cex :
    (send appB 5 1 0 1).2 = some ("Insufficient balance") ∧
    ¬ (send appB 5 1 0 1).1 = appB := by
  have hc : (gw appB 1).contract = false := by
    norm_num [gw, appB, List.getD_cons_succ, List.getD_cons_zero]
  have hsuf : (gw (settle appB 5 1) 1).balance < 1 := by
    rw [settle_gw_self appB 5 1 (by norm_num [appB]) (by norm_num) hc]
    dsimp only
    norm_num [interestOf, vestOf, rateOf, elapsed, gw, appB, dw,
      List.getD_cons_succ, List.getD_cons_zero]
  have h := send_insufficient appB 5 1 0 1 (by norm_num) (by norm_num) hsuf
  rw [h]
  refine ⟨rfl, ?_⟩
  intro habs
  have ht := congrArg (fun s => (gw s 1).t) habs
  dsimp only at ht
  rw [settle_gw_self appB 5 1 (by norm_num [appB]) (by norm_num) hc] at ht
  dsimp only at ht
  rw [show (gw appB 1).t = 0 from by
    norm_num [gw, appB, List.getD_cons_succ, List.getD_cons_zero]] at ht
  norm_num at ht

/-- The redeemed wallet after a successful early settlement with a positive
claim: the vested sub-balance and the claim are credited to balance, the
vested sub-balance is cleared, and the claim plus its one-third penalty are
deducted from locked. -/
theorem gw_early_result_pos_self (a : App) (t : ℝ) (i : ℕ) (amount : ℝ)
    (hi : i < a.wallets.length) (h0 : ¬ i = 0) (hpos : 0 < amount) :
    gw (early_result a t i amount) i =
      { gw (settle a t i) i with
          balance := (gw (settle a t i) i).balance
            + (gw (settle a t i) i).vested + amount,
          vested := 0,
          locked := (gw (settle a t i) i).locked - (amount + amount / 3) } := by
  have hi1 : i < (settle a t i).wallets.length := by
    rw [settle_length]
    exact hi
  simp only [early_result, if_pos hpos]
  rw [gw_withLog, gw_setw_ne _ 0 i _ (fun h => h0 h.symm),
    gw_setw_self _ _ _ hi1]

/-- The issuer after a successful early settlement with a positive claim:
it receives the one-third penalty fee. -/
theorem gw_early_result_pos_issuer (a : App) (t : ℝ) (i : ℕ) (amount : ℝ)
    (hi : i < a.wallets.length) (h0 : ¬ i = 0) (hpos : 0 < amount) :
    gw (early_result a t i amount) 0 =
      { gw (settle a t i) 0 with
          balance := (gw (settle a t i) 0).balance + amount / 3 } := by
  have h0len : 0 < (settle a t i).wallets.length :=
    Nat.lt_of_lt_of_le (Nat.pos_of_ne_zero h0)
      (le_of_lt (by rw [settle_length]; exact hi))
  simp only [early_result, if_pos hpos]
  rw [gw_withLog, gw_setw_self _ _ _ ?hlen]
  case hlen =>
    rw [setw_length]
    exact h0len

/-- C4 (amended): a claim beyond three quarters of the settled locked
amount fails with the Exceeds-available error and the free vesting unlock
does NOT take effect — the check precedes the unlock, so the returned state
is exactly the settled state, with the vested sub-balance and the balance
untouched. -/
theorem exceeds_claim_skips_unlock (a : App) (t : ℝ) (i : ℕ) (amount : ℝ)
    (h0 : ¬ i = 0) (hpos : 0 < amount)
    (hgt : 3 * (gw (settle a t i) i).locked / 4 < amount) :
    early_settle a t i amount = (settle a t i, some ("Exceeds available")) ∧
    (gw (early_settle a t i amount).1 i).vested
      = (gw (settle a t i) i).vested ∧
    (gw (early_settle a t i amount).1 i).balance
      = (gw (settle a t i) i).balance := by
  have h := early_settle_exceeds a t i amount h0
    (not_lt.mpr (le_of_lt hpos)) ⟨hpos, hgt⟩
  rw [h]
  exact ⟨rfl, rfl, rfl⟩

/-- Witness for C4 (amended) on appD: the claim 7/2 exceeds the ceiling 3
and is rejected, leaving the settled state with vested still 5. -/
theorem exceeds_claim_skips_unlock_witness :
    3 * (gw (settle appD 0 1) 1).locked / 4 < 7 / 2 ∧
    (early_settle appD 0 1 (7 / 2)
        = (settle appD 0 1, some ("Exceeds available")) ∧
      (gw (early_settle appD 0 1 (7 / 2)).1 1).vested
        = (gw (settle appD 0 1) 1).vested ∧
      (gw (early_settle appD 0 1 (7 / 2)).1 1).balance
        = (gw (settle appD 0 1) 1).balance) := by
  have hgt : 3 * (gw (settle appD 0 1) 1).locked / 4 < 7 / 2 := by
    rw [settle_appD1]
    norm_num [gw, appD, List.getD_cons_succ, List.getD_cons_zero]
  exact ⟨hgt, exceeds_claim_skips_unlock appD 0 1 (7 / 2) (by norm_num)
    (by norm_num) hgt⟩

/-- Counterexample to C4 as stated: on appD the rejected claim 7/2 leaves
the vested sub-balance at 5 — the free unlock that the claim promises
(vested moved into balance, leaving 0) did not happen. -/
theorem exceeds_claim_skips_unlock_cex :
    (early_settle appD 0 1 (7 / 2)).2 = some ("Exceeds available") ∧
    (gw (early_settle appD 0 1 (7 / 2)).1 1).vested = 5 ∧
    (gw (early_settle appD 0 1 (7 / 2)).1 1).balance = 0 ∧
    ¬ (5 : ℝ) = 0 := by
  have hgt : 3 * (gw (settle appD 0 1) 1).locked / 4 < 7 / 2 := by
    rw [settle_appD1]
    norm_num [gw, appD, List.getD_cons_succ, List.getD_cons_zero]
  have h := early_settle_exceeds appD 0 1 (7 / 2) (by norm_num)
    (by norm_num) ⟨by norm_num, hgt⟩
  rw [h]
  refine ⟨rfl, ?_, ?_, by norm_num⟩ <;>
    rw [settle_appD1] <;>
    norm_num [gw, appD, List.getD_cons_succ, List.getD_cons_zero]

/-- C10: a successful early redemption of 0 < a ≤ 3L/4 (L the settled
locked amount) credits the claim a — on top of the free unlock of the
vested sub-balance — to the wallet's balance, clears vested, deducts
a + a/3 = 4a/3 from locked leaving it non-negative, and credits the a/3
penalty to the issuer. -/
theorem early_redeem_success (a : App) (t : ℝ) (i : ℕ) (amount : ℝ)
    (hi : i < a.wallets.length) (h0 : ¬ i = 0) (hpos : 0 < amount)
    (hle : amount ≤ 3 * (gw (settle a t i) i).locked / 4) :
    (early_settle a t i amount).2 = none ∧
    (gw (early_settle a t i amount).1 i).balance
      = (gw (settle a t i) i).balance + (gw (settle a t i) i).vested
        + amount ∧
    (gw (early_settle a t i amount).1 i).vested = 0 ∧
    (gw (early_settle a t i amount).1 i).locked
      = (gw (settle a t i) i).locked - 4 * amount / 3 ∧
    0 ≤ (gw (early_settle a t i amount).1 i).locked ∧
    (gw (early_settle a t i amount).1 0).balance
      = (gw (settle a t i) 0).balance + amount / 3 := by
  have hok : ¬ (0 < amount ∧ 3 * (gw (settle a t i) i).locked / 4 < amount) := by
    rintro ⟨_, hgt⟩
    exact absurd hle (not_le.mpr hgt)
  rw [early_settle_eq a t i amount hi h0 (not_lt.mpr (le_of_lt hpos)) hok]
  refine ⟨rfl, ?_, ?_, ?_, ?_, ?_⟩
  · rw [show ((early_result a t i amount, (none : Option String)).1)
        = early_result a t i amount from rfl,
      gw_early_result_pos_self a t i amount hi h0 hpos]
  · rw [show ((early_result a t i amount, (none : Option String)).1)
        = early_result a t i amount from rfl,
      gw_early_result_pos_self a t i amount hi h0 hpos]
  · rw [show ((early_result a t i amount, (none : Option String)).1)
        = early_result a t i amount from rfl,
      gw_early_result_pos_self a t i amount hi h0 hpos]
    dsimp only
    ring
  · rw [show ((early_result a t i amount, (none : Option String)).1)
        = early_result a t i amount from rfl,
      gw_early_result_pos_self a t i amount hi h0 hpos]
    dsimp only
    linarith
  · rw [show ((early_result a t i amount, (none : Option String)).1)
        = early_result a t i amount from rfl,
      gw_early_result_pos_issuer a t i amount hi h0 hpos]

/-- Witness for C10 on appD: redeeming 3 ≤ 3·4/4 succeeds, crediting
5 + 3 = 8 to balance, clearing vested, emptying locked (4 − 4 = 0) and
paying the penalty 1 to the issuer. -/
theorem early_redeem_success_witness :
    (0 : ℝ) < 3 ∧ (3 : ℝ) ≤ 3 * (gw (settle appD 0 1) 1).locked / 4 ∧
    ((early_settle appD 0 1 3).2 = none ∧
     (gw (early_settle appD 0 1 3).1 1).balance
       = (gw (settle appD 0 1) 1).balance + (gw (settle appD 0 1) 1).vested
         + 3 ∧
     (gw (early_settle appD 0 1 3).1 1).vested = 0 ∧
     (gw (early_settle appD 0 1 3).1 1).locked
       = (gw (settle appD 0 1) 1).locked - 4 * 3 / 3 ∧
     0 ≤ (gw (early_settle appD 0 1 3).1 1).locked ∧
     (gw (early_settle appD 0 1 3).1 0).balance
       = (gw (settle appD 0 1) 0).balance + 3 / 3) := by
  have hle : (3 : ℝ) ≤ 3 * (gw (settle appD 0 1) 1).locked / 4 := by
    rw [settle_appD1]
    norm_num [gw, appD, List.getD_cons_succ, List.getD_cons_zero]
  exact ⟨by norm_num, hle,
    early_redeem_success appD 0 1 3 (by norm_num [appD]) (by norm_num)
      (by norm_num) hle⟩

/-- C6 (amended): one settlement step on a non-issuer, non-contract wallet
moves unlocked = min(locked·(exp(PRATE·dt) − 1), locked) from the locked
sub-balance into the VESTED sub-balance (not into the spendable balance),
adds interest = (balance + vested + unlocked)·(exp(rate·dt) − 1) with
rate = RATE·max(issuerBalance, 0)/TOTAL_SUPPLY to the spendable balance,
debits exactly that interest from the issuer in the same step, stamps the
wallet with the current time, and changes nothing else. -/
theorem settle_step_accrual (a : App) (t : ℝ) (i : ℕ)
    (hi : i < a.wallets.length) (h0 : ¬ i = 0)
    (hc : (gw a i).contract = false) :
    (gw (settle a t i) i).vested = (gw a i).vested + vestOf (gw a i) t ∧
    (gw (settle a t i) i).locked = (gw a i).locked - vestOf (gw a i) t ∧
    (gw (settle a t i) i).balance
      = (gw a i).balance + interestOf a (gw a i) t ∧
    (gw (settle a t i) i).t = t ∧
    (gw (settle a t i) 0).balance
      = (gw a 0).balance - interestOf a (gw a i) t ∧
    (∀ k, ¬ k = i → ¬ k = 0 → gw (settle a t i) k = gw a k) ∧
    (settle a t i).log = a.log ∧
    (settle a t i).contributions = a.contributions := by
  have h0len : 0 < a.wallets.length :=
    Nat.lt_of_lt_of_le (Nat.pos_of_ne_zero h0) (le_of_lt hi)
  refine ⟨?_, ?_, ?_, ?_, ?_, ?_, settle_log a t i, settle_contributions a t i⟩
  · rw [settle_gw_self a t i hi h0 hc]
  · rw [settle_gw_self a t i hi h0 hc]
  · rw [settle_gw_self a t i hi h0 hc]
  · rw [settle_gw_self a t i hi h0 hc]
  · rw [settle_gw_issuer a t i h0len h0 hc]
  · intro k hki hk0
    exact settle_gw_other a t i k hki hk0

/-- Witness for C6 (amended) on appF. -/
theorem settle_step_accrual_witness :
    (gw appF 1).contract = false ∧
    ((gw (settle appF SPY 1) 1).vested
        = (gw appF 1).vested + vestOf (gw appF 1) SPY ∧
      (gw (settle appF SPY 1) 1).locked
        = (gw appF 1).locked - vestOf (gw appF 1) SPY ∧
      (gw (settle appF SPY 1) 1).balance
        = (gw appF 1).balance + interestOf appF (gw appF 1) SPY ∧
      (gw (settle appF SPY 1) 1).t = SPY ∧
      (gw (settle appF SPY 1) 0).balance
        = (gw appF 0).balance - interestOf appF (gw appF 1) SPY ∧
      (∀ k, ¬ k = 1 → ¬ k = 0 → gw (settle appF SPY 1) k = gw appF k) ∧
      (settle appF SPY 1).log = appF.log ∧
      (settle appF SPY 1).contributions = appF.contributions) := by
  have hc : (gw appF 1).contract = false := by
    norm_num [gw, appF, List.getD_cons_succ, List.getD_cons_zero]
  exact ⟨hc, settle_step_accrual appF SPY 1 (by norm_num [appF])
    (by norm_num) hc⟩

/-- Counterexample to C6 as stated: on appF (issuer empty, wallet F with
locked 2) a full year unlocks the whole locked amount, yet F's spendable
balance stays 0 — the unlocked funds land in the vested sub-balance, not in
the spendable balance the claim names. -/
theorem settle_step_accrual_cex :
    (gw (settle appF SPY 1) 1).balance = 0 ∧
    (gw (settle appF SPY 1) 1).vested = 2 ∧
    (gw (settle appF SPY 1) 1).locked = 0 ∧
    ¬ (0 : ℝ) = 2 := by
  have hc : (gw appF 1).contract = false := by
    norm_num [gw, appF, List.getD_cons_succ, List.getD_cons_zero]
  have hw1 : gw appF 1 = ⟨"F", false, 2, 0, 0, 0, 0⟩ := by
    norm_num [gw, appF, List.getD_cons_succ, List.getD_cons_zero]
  have hvest : vestOf (⟨"F", false, 2, 0, 0, 0, 0⟩ : Wallet) SPY = 2 := by
    unfold vestOf elapsed
    dsimp only
    rw [sub_zero, div_self (ne_of_gt SPY_pos), mul_one]
    have hP : (1 : ℝ) ≤ PRATE := by norm_num [PRATE, RATE]
    have hexp := Real.add_one_le_exp PRATE
    rw [min_eq_right (by nlinarith)]
  have hint : interestOf appF (⟨"F", false, 2, 0, 0, 0, 0⟩ : Wallet) SPY
      = 0 := by
    unfold interestOf rateOf
    rw [show (gw appF 0).balance = 0 from by
      norm_num [gw, appF, List.getD_cons_zero]]
    norm_num [Real.exp_zero]
  refine ⟨?_, ?_, ?_, by norm_num⟩ <;>
    rw [settle_gw_self appF SPY 1 (by norm_num [appF]) (by norm_num) hc] <;>
    dsimp only <;>
    simp only [hw1, hvest, hint] <;>
    norm_num

/-- C3 (amended): starting from a well-formed ledger, every operation —
settlement, transfer, early redemption, lottery check — keeps every
non-issuer wallet's spendable balance non-negative (along with non-negative
locked and vested sub-balances); a transfer that would overdraw the settled
sender is rejected. The issuer's own balance is NOT protected: interest
funding may drive it negative (its rate is then clamped to zero). -/
theorem nonneg_noniss_balances (a : App) (t : ℝ) (i j : ℕ) (amount : ℝ)
    (pick : ℕ) (hW : WF a t) (hi : i < a.wallets.length)
    (hj : j < a.wallets.length) (hm : MILLIONAIRE_IDX < a.wallets.length)
    (hc : a.contributions.length ≤ a.wallets.length) :
    WF (settle a t i) t ∧ WF (send a t i j amount).1 t ∧
    WF (early_settle a t i amount).1 t ∧
    WF (check_millionaire a t pick) t :=
  ⟨WF_settle a t i hW hi, WF_send a t i j amount hW hi hj,
   WF_early_settle a t i amount hW hi,
   WF_check_millionaire a t pick hW hm hc⟩

/-- The concrete millionaire ledger is well-formed at time 0. -/
theorem WF_appM : WF appM 0 := by
  intro k hk
  have hk7 : k < 7 := by
    simpa [appM] using hk
  interval_cases k <;>
    norm_num [gw, appM, List.getD_cons_succ, List.getD_cons_zero]

/-- Witness for C3 (amended) on the concrete millionaire ledger. -/
theorem nonneg_noniss_balances_witness :
    WF appM 0 ∧
    (WF (settle appM 0 1) 0 ∧ WF (send appM 0 1 2 5).1 0 ∧
     WF (early_settle appM 0 1 5).1 0 ∧
     WF (check_millionaire appM 0 0) 0) :=
  ⟨WF_appM,
   nonneg_noniss_balances appM 0 1 2 5 0 WF_appM (by norm_num [appM])
     (by norm_num [appM]) (by norm_num [appM, MILLIONAIRE_IDX])
     (by norm_num [appM])⟩

/-- Counterexample to C3 as stated: on appE (issuer balance 1, a huge
settled wallet) one settlement step after a year debits the issuer by more
interest than it holds, leaving its balance negative. -/
theorem nonneg_noniss_balances_cex :
    (gw (settle appE SPY 1) 0).balance < 0 := by
  have hc : (gw appE 1).contract = false := by
    norm_num [gw, appE, List.getD_cons_succ, List.getD_cons_zero]
  have hw1 : gw appE 1 = ⟨"E", false, 0, 0, 100000000000, 0, 0⟩ := by
    norm_num [gw, appE, List.getD_cons_succ, List.getD_cons_zero]
  have hw0 : (gw appE 0).balance = 1 := by
    norm_num [gw, appE, List.getD_cons_zero]
  have hie : interestOf appE (gw appE 1) SPY
      = 100000000000 * (Real.exp (1 / 2700000000) - 1) := by
    rw [hw1]
    unfold interestOf vestOf rateOf elapsed
    rw [hw0]
    dsimp only
    rw [sub_zero, div_self (ne_of_gt SPY_pos)]
    norm_num [max_def, RATE, TOTAL_SUPPLY]
  have hb := Real.add_one_le_exp ((1 : ℝ) / 2700000000)
  rw [settle_gw_issuer appE SPY 1 (by norm_num [appE]) (by norm_num) hc]
  dsimp only
  rw [hw0, hie]
  linarith

/-- C2 (amended): a successful transfer between distinct non-issuer
wallets reports no error; the sender's settled spendable balance decreases
by exactly the requested amount plus the fee portion drawn from balance
after locked and vested are exhausted, the fee portions being drawn in the
order locked, vested, balance; the sender's lifetime-sent grows by the
amount; and the total funds of the ledger are conserved — the recipient's
credit plus the issuer's fee credit equals everything debited from the
sender (the requested amount plus the fee actually collected), not the
requested amount alone. -/
theorem transfer_fee_conservation (a : App) (t : ℝ) (i j : ℕ) (amount : ℝ)
    (hi : i < a.wallets.length) (hj : j < a.wallets.length) (hij : ¬ i = j)
    (hi0 : ¬ i = 0) (hj0 : ¬ j = 0) (hpos : 0 < amount)
    (hsuf : amount ≤ (gw (settle a t i) i).balance) :
    (send a t i j amount).2 = none ∧
    totalFunds (send a t i j amount).1 = totalFunds a ∧
    (gw (send a t i j amount).1 i).balance
      = (gw (settle a t i) i).balance - amount
        - min (amount / 1000
               - min (amount / 1000) (gw (settle a t i) i).locked
               - min (amount / 1000
                      - min (amount / 1000) (gw (settle a t i) i).locked)
                   (gw (settle a t i) i).vested)
            ((gw (settle a t i) i).balance - amount) ∧
    (gw (send a t i j amount).1 i).locked
      = (gw (settle a t i) i).locked
        - min (amount / 1000) (gw (settle a t i) i).locked ∧
    (gw (send a t i j amount).1 i).vested
      = (gw (settle a t i) i).vested
        - min (amount / 1000
               - min (amount / 1000) (gw (settle a t i) i).locked)
            (gw (settle a t i) i).vested ∧
    (gw (send a t i j amount).1 i).sent
      = (gw (settle a t i) i).sent + amount := by
  have hsuf' : ¬ (gw (settle a t i) i).balance < amount := not_lt.mpr hsuf
  rw [send_eq a t i j amount hi hij hi0 hj0 hpos hsuf']
  refine ⟨rfl, totalFunds_send_result a t i j amount hi hj hij hi0 hj0,
    ?_, ?_, ?_, ?_⟩ <;>
    rw [show ((send_result a t i j amount, (none : Option String)).1)
        = send_result a t i j amount from rfl,
      gw_send_result_sender a t i j amount hi hij hi0]

/-- Witness for C2 (amended): sending 10 from A to B in appA succeeds,
conserves total funds, and debits A by 10 plus the 0.01 fee drawn from its
remaining balance (A has no locked or vested funds). -/
theorem transfer_fee_conservation_witness :
    (10 : ℝ) ≤ (gw (settle appA 0 1) 1).balance ∧
    ((send appA 0 1 2 10).2 = none ∧
     totalFunds (send appA 0 1 2 10).1 = totalFunds appA ∧
     (gw (send appA 0 1 2 10).1 1).balance
       = (gw (settle appA 0 1) 1).balance - 10
         - min ((10 : ℝ) / 1000
                - min ((10 : ℝ) / 1000) (gw (settle appA 0 1) 1).locked
                - min ((10 : ℝ) / 1000
                       - min ((10 : ℝ) / 1000) (gw (settle appA 0 1) 1).locked)
                    (gw (settle appA 0 1) 1).vested)
             ((gw (settle appA 0 1) 1).balance - 10) ∧
     (gw (send appA 0 1 2 10).1 1).locked
       = (gw (settle appA 0 1) 1).locked
         - min ((10 : ℝ) / 1000) (gw (settle appA 0 1) 1).locked ∧
     (gw (send appA 0 1 2 10).1 1).vested
       = (gw (settle appA 0 1) 1).vested
         - min ((10 : ℝ) / 1000
                - min ((10 : ℝ) / 1000) (gw (settle appA 0 1) 1).locked)
             (gw (settle appA 0 1) 1).vested ∧
     (gw (send appA 0 1 2 10).1 1).sent
       = (gw (settle appA 0 1) 1).sent + 10) := by
  have hsuf : (10 : ℝ) ≤ (gw (settle appA 0 1) 1).balance := by
    rw [settle_appA1]
    norm_num [gw, appA, List.getD_cons_succ, List.getD_cons_zero]
  exact ⟨hsuf, transfer_fee_conservation appA 0 1 2 10 (by norm_num [appA])
    (by norm_num [appA]) (by norm_num) (by norm_num) (by norm_num)
    (by norm_num) hsuf⟩

/-- Counterexample to C2 as stated: in appA, sending 10 from A to B
credits B with the full 10 (split one third spendable, two thirds locked)
while the issuer is additionally credited the fee 0.01 — so the recipient's
credit plus the routed fee is 10.01, not the requested 10. -/
theorem transfer_fee_conservation_cex :
    (gw (send appA 0 1 2 10).1 2).balance
        + (gw (send appA 0 1 2 10).1 2).locked
        + ((gw (send appA 0 1 2 10).1 0).balance - 1000)
      = 10 + 1 / 100 ∧
    ¬ ((10 : ℝ) + 1 / 100 = 10) := by
  have hsuf : ¬ (gw (settle appA 0 1) 1).balance < 10 := by
    rw [settle_appA1]
    norm_num [gw, appA, List.getD_cons_succ, List.getD_cons_zero]
  rw [send_eq appA 0 1 2 10 (by norm_num [appA]) (by norm_num) (by norm_num)
    (by norm_num) (by norm_num) hsuf]
  refine ⟨?_, by norm_num⟩
  norm_num [send_result, settle_appA1, gw, setw, appA, MILLIONAIRE_IDX,
    List.getD_cons_succ, List.getD_cons_zero, settle, vestOf, interestOf,
    rateOf, elapsed, Real.exp_zero, dw]
